import Mathlib

/-!
Verification of the key-vault-extension core (key derivation, authenticated
encryption, encrypted record storage, session lifecycle) against its
natural-language specification.

The TypeScript source is shallowly embedded: byte buffers and strings become
`List Nat` of byte values, `Promise`-returning fallible functions become
`Except`-valued functions, the random inputs the code draws (nonces, salts,
record ids, `Date.now()` readings, timer handles) become explicit parameters,
and module-level mutable state (the zustand stores, the Dexie database)
becomes explicit state passing.

The calls into the external libsodium library (`sodium-plus`) are modelled by
an idealized AEAD: the XChaCha20 keystream is an arbitrary concrete function
(any function works, only invertibility of the XOR masking matters), and the
Poly1305 authentication tag is idealized as an injective record of
(key, nonce, associated data, ciphertext body), which is the standard
idealization of MAC unforgeability / collision resistance.
-/

namespace KeyVault

/-- Byte sequences (TS `Buffer` contents / UTF-8 bytes of strings). -/
abbrev Bytes := List Nat

/-! ## Idealized model of the sodium-plus AEAD primitive -/

/-- Idealized Poly1305 authentication tag: authenticates the key, nonce,
associated data and ciphertext body.  Tag equality coincides with equality of
the authenticated inputs (idealized unforgeability). -/
structure AeadTag where
  key : Bytes
  nonce : Bytes
  ad : Option Bytes
  body : Bytes
deriving DecidableEq

/-- An XChaCha20-Poly1305 ciphertext: the masked plaintext bytes followed by
the (idealized) authentication tag. -/
structure AeadCiphertext where
  body : Bytes
  tag : AeadTag
deriving DecidableEq

/-- Model of the XChaCha20 keystream byte at position `i` for a given key and
nonce.  The concrete formula is irrelevant to every property proved below;
only determinism in (key, nonce, i) matters. -/
def xchachaKeystream (key nonce : Bytes) (i : Nat) : Nat :=
  (key.sum * 131 + nonce.sum * 31 + i * 17 + 7) % 256

/-- XOR a byte list against a keystream starting at position `i`. -/
def xorStream (ks : Nat → Nat) : Nat → Bytes → Bytes
  | _, [] => []
  | i, b :: bs => (b ^^^ ks i) :: xorStream ks (i + 1) bs

/-- Model of `sodium.crypto_aead_xchacha20poly1305_ietf_encrypt`: requires a
32-byte key and 24-byte nonce (libsodium throws otherwise, modelled as
`none`), masks the message with the keystream and appends the tag. -/
def sodiumAeadEncrypt (msg nonce key : Bytes) (ad : Option Bytes) :
    Option AeadCiphertext :=
  if key.length = 32 ∧ nonce.length = 24 then
    let body := xorStream (xchachaKeystream key nonce) 0 msg
    some ⟨body, ⟨key, nonce, ad, body⟩⟩
  else none

/-- Model of `sodium.crypto_aead_xchacha20poly1305_ietf_decrypt`: verifies the
authentication tag against the presented key, nonce, associated data and body
before unmasking; any mismatch (or bad key length) throws, modelled `none`. -/
def sodiumAeadDecrypt (ct : AeadCiphertext) (nonce key : Bytes)
    (ad : Option Bytes) : Option Bytes :=
  if ct.tag = ⟨key, nonce, ad, ct.body⟩ ∧ key.length = 32 ∧ nonce.length = 24 then
    some (xorStream (xchachaKeystream key nonce) 0 ct.body)
  else none

/-! ## src/crypto/encryption.ts -/

/-- The `string | Buffer` plaintext union accepted by `encrypt`.  Strings are
represented by their UTF-8 bytes. -/
inductive Plaintext where
  | str (bytes : Bytes)
  | buf (bytes : Bytes)
deriving DecidableEq

/-- The byte content of a plaintext (TS `Buffer.from(s, 'utf-8')` for
strings, the buffer itself otherwise). -/
def Plaintext.bytes : Plaintext → Bytes
  | .str bs => bs
  | .buf bs => bs

/-- The emptiness check of `encrypt`:
`!plaintext || (typeof plaintext === 'string' && plaintext.length === 0)`.
An empty string is falsy so it trips the first disjunct; a `Buffer` is an
object, always truthy, and fails the `typeof` guard, so only empty strings
are rejected. -/
def Plaintext.isEmptyInput : Plaintext → Bool
  | .str [] => true
  | _ => false

/-- The error values thrown by the crypto and storage modules, one
constructor per distinct `new Error(...)` message. -/
inductive CryptoError where
  /-- 'Plaintext cannot be empty' -/
  | emptyPlaintext
  /-- 'Invalid encrypted data: ...' / 'Invalid nonce length: ...' -/
  | invalidEncryptedData
  /-- 'Decryption failed: invalid key or corrupted data' -/
  | decryptionFailed
  /-- 'Failed to parse decrypted credentials: invalid JSON' -/
  | malformedPayload
  /-- 'Password cannot be empty' -/
  | emptyPassword
  /-- an exception raised inside sodium itself and not caught by the wrapper -/
  | sodiumError
deriving DecidableEq

/-- The `EncryptedData` interface.  The base64 encoding of `ciphertext` and
`nonce` is a reversible presentation detail and is elided: the fields hold the
decoded values directly. -/
structure EncryptedData where
  ciphertext : AeadCiphertext
  nonce : Bytes
  timestamp : Int
  version : Nat
deriving DecidableEq

/-- `const ENCRYPTION_VERSION = 1`. -/
def ENCRYPTION_VERSION : Nat := 1

/-- `encrypt(plaintext, key, additionalData?)` with the freshly generated
random nonce and the `Date.now()` reading passed in explicitly. -/
def encrypt (nonce : Bytes) (now : Int) (plaintext : Plaintext) (key : Bytes)
    (additionalData : Option Bytes) : Except CryptoError EncryptedData :=
  if plaintext.isEmptyInput then
    .error .emptyPlaintext
  else
    let plaintextBuffer := plaintext.bytes
    match sodiumAeadEncrypt plaintextBuffer nonce key additionalData with
    | some ciphertext =>
        .ok { ciphertext := ciphertext, nonce := nonce, timestamp := now,
              version := ENCRYPTION_VERSION }
    | none => .error .sodiumError

/-- `decrypt(encryptedData, key, additionalData?)`.  The missing-field check
(`!ciphertext || !nonce`) and the explicit nonce-length check both raise the
invalid-encrypted-data error; a missing nonce decodes to zero bytes, caught by
the length check.  Any failure inside the sodium call is caught and rethrown
as the single generic decryption-failed error. -/
def decrypt (encryptedData : EncryptedData) (key : Bytes)
    (additionalData : Option Bytes) : Except CryptoError Bytes :=
  if encryptedData.nonce.length ≠ 24 then
    .error .invalidEncryptedData
  else
    match sodiumAeadDecrypt encryptedData.ciphertext encryptedData.nonce key
        additionalData with
    | some plaintext => .ok plaintext
    | none => .error .decryptionFailed

/-! ## src/crypto/keyDerivation.ts -/

/-- `ARGON2_PARAMS` from the key derivation module. -/
def ARGON2_PARAMS_MEMORY_COST : Nat := 65536

/-- Argon2id time cost (iterations). -/
def ARGON2_PARAMS_TIME_COST : Nat := 3

/-- Derived key length in bytes. -/
def ARGON2_PARAMS_KEY_LENGTH : Nat := 32

/-- Salt length in bytes. -/
def ARGON2_PARAMS_SALT_LENGTH : Nat := 16

/-- Model of one output byte of the Argon2id hash.  As with the keystream,
the concrete formula is irrelevant; Argon2id is a deterministic function of
(password, salt, costs, position) and that is all the model asserts. -/
def argon2idByte (password salt : Bytes) (timeCost memCost i : Nat) : Nat :=
  (password.sum * 257 + salt.sum * 263 + timeCost * 269 + memCost * 271
    + i * 277 + 31) % 256

/-- Model of `sodium.crypto_pwhash(outLen, password, salt, timeCost,
memCost, ALG_ARGON2ID13)`. -/
def cryptoPwhash (outLen : Nat) (password salt : Bytes)
    (timeCost memCost : Nat) : Bytes :=
  (List.range outLen).map (argon2idByte password salt timeCost memCost)

/-- The `DerivedKey` result interface of `deriveKey`. -/
structure DerivedKeyResult where
  key : Bytes
  salt : Bytes
deriving DecidableEq

/-- `deriveKey(password, salt?)`.  `generatedSalt` is the fresh random salt
the function draws from sodium when the `salt` argument is omitted. -/
def deriveKey (generatedSalt : Bytes) (password : Bytes)
    (salt : Option Bytes) : Except CryptoError DerivedKeyResult :=
  if password = [] then
    .error .emptyPassword
  else
    let actualSalt := salt.getD generatedSalt
    let derivedKey := cryptoPwhash ARGON2_PARAMS_KEY_LENGTH password actualSalt
      ARGON2_PARAMS_TIME_COST ARGON2_PARAMS_MEMORY_COST
    .ok { key := derivedKey, salt := actualSalt }

/-! ## src/store/sessionStore.ts -/

/-- `DEFAULT_SESSION_SETTINGS.lockTimeoutMinutes`. -/
def DEFAULT_LOCK_TIMEOUT_MINUTES : Int := 15

/-- The `sessionSettings` record persisted in `chrome.storage.local`
(`none` models an empty settings store). -/
structure SettingsStore where
  sessionSettings : Option Int
deriving DecidableEq

/-- The zustand session store state.  The `setInterval` handle
`autoLockTimerId` is modelled by an optional abstract timer id. -/
structure SessionStoreState where
  isActive : Bool
  lastActivityTime : Int
  lockTimeoutMinutes : Int
  autoLockTimerId : Option Nat
deriving DecidableEq

/-- `initializeSession()`: loads the persisted settings (falling back to the
defaults when the store is empty or unreadable) and marks the session
active. -/
def initializeSession (now : Int) (settings : SettingsStore)
    (st : SessionStoreState) : SessionStoreState :=
  let stored := settings.sessionSettings.getD DEFAULT_LOCK_TIMEOUT_MINUTES
  { st with lockTimeoutMinutes := stored, isActive := true,
            lastActivityTime := now }

/-- `updateActivity()`. -/
def updateActivity (now : Int) (st : SessionStoreState) : SessionStoreState :=
  { st with lastActivityTime := now }

/-- `stopAutoLockTimer()`: clears the interval when one is running. -/
def stopAutoLockTimer (st : SessionStoreState) : SessionStoreState :=
  match st.autoLockTimerId with
  | some _ => { st with autoLockTimerId := none }
  | none => st

/-- `startAutoLockTimer()`: stops any existing timer first, then installs a
fresh 10-second interval, whose handle is the injected `newTimerId`. -/
def startAutoLockTimer (newTimerId : Nat) (st : SessionStoreState) :
    SessionStoreState :=
  let st1 := match st.autoLockTimerId with
    | some _ => stopAutoLockTimer st
    | none => st
  { st1 with autoLockTimerId := some newTimerId }

/-- `setLockTimeout(minutes)`: clamps to [1, 60], applies to the store state
and persists the clamped value to `chrome.storage.local`. -/
def setLockTimeout (minutes : Int) (st : SessionStoreState)
    (settings : SettingsStore) : SessionStoreState × SettingsStore :=
  let validatedMinutes := max 1 (min 60 minutes)
  ({ st with lockTimeoutMinutes := validatedMinutes },
   { sessionSettings := some validatedMinutes })

/-- `clearSession()`: stops the auto-lock timer and deactivates the session.
The embedded `now` is the `Date.now()` read inside the `set`. -/
def clearSession (now : Int) (st : SessionStoreState) : SessionStoreState :=
  let st1 := stopAutoLockTimer st
  { st1 with isActive := false, lastActivityTime := now }

/-- `checkAndLockIfInactive()`: one tick of the periodic check.  Returns the
new state together with the number of `vault-auto-lock` events dispatched
during the tick. -/
def checkAndLockIfInactive (now : Int) (st : SessionStoreState) :
    SessionStoreState × Nat :=
  if st.isActive = false then
    (st, 0)
  else
    let timeoutMs := st.lockTimeoutMinutes * 60 * 1000
    let inactiveTime := now - st.lastActivityTime
    if inactiveTime ≥ timeoutMs then
      (clearSession now st, 1)
    else
      (st, 0)

/-! ## src/storage/types.ts and the JSON payload encoding -/

/-- The decrypted `CredentialData` payload.  String fields are byte
sequences; the optional `customFields` record is a key-value list. -/
structure CredentialData where
  title : Bytes
  username : Bytes
  password : Bytes
  url : Option Bytes
  notes : Option Bytes
  customFields : Option (List (Bytes × Bytes))
deriving DecidableEq

/-- Length-prefixed field encoding, modelling one JSON string field of
`JSON.stringify`. -/
def encodeBytes (bs : Bytes) : Bytes := bs.length :: bs

/-- Encoding of an optional field (absent fields are skipped by
`JSON.stringify`, modelled by a presence marker). -/
def encodeOptBytes : Option Bytes → Bytes
  | none => [0]
  | some bs => 1 :: encodeBytes bs

/-- Encoding of one custom-field entry. -/
def encodePair (kv : Bytes × Bytes) : Bytes :=
  encodeBytes kv.1 ++ encodeBytes kv.2

/-- Encoding of the optional `customFields` record. -/
def encodeOptPairs : Option (List (Bytes × Bytes)) → Bytes
  | none => [0]
  | some l => 1 :: l.length :: (l.map encodePair).flatten

/-- Model of `JSON.stringify` on a credential object: the concatenation of
the encoded fields.  Always non-empty (it starts with the title length). -/
def serializeCredentialData (d : CredentialData) : Bytes :=
  encodeBytes d.title ++ encodeBytes d.username ++ encodeBytes d.password ++
  encodeOptBytes d.url ++ encodeOptBytes d.notes ++
  encodeOptPairs d.customFields

/-- Decoder for one length-prefixed field, returning the field and the rest
of the input. -/
def readBytes : Bytes → Option (Bytes × Bytes)
  | [] => none
  | n :: rest => if n ≤ rest.length then some (rest.take n, rest.drop n)
                 else none

/-- Decoder for an optional field. -/
def readOptBytes : Bytes → Option (Option Bytes × Bytes)
  | 0 :: rest => some (none, rest)
  | 1 :: rest => (readBytes rest).map fun p => (some p.1, p.2)
  | _ => none

/-- Decoder for `n` custom-field entries. -/
def readPairs : Nat → Bytes → Option (List (Bytes × Bytes) × Bytes)
  | 0, rest => some ([], rest)
  | n + 1, rest => do
    let (k, rest1) ← readBytes rest
    let (v, rest2) ← readBytes rest1
    let (tl, rest3) ← readPairs n rest2
    pure ((k, v) :: tl, rest3)

/-- Decoder for the optional `customFields` record. -/
def readOptPairs : Bytes → Option (Option (List (Bytes × Bytes)) × Bytes)
  | 0 :: rest => some (none, rest)
  | 1 :: n :: rest => (readPairs n rest).map fun p => (some p.1, p.2)
  | _ => none

/-- Model of `JSON.parse` on a decrypted payload: parses the fields back and
requires the input to be fully consumed; malformed input yields `none`. -/
def deserializeCredentialData (bs : Bytes) : Option CredentialData := do
  let (title, r1) ← readBytes bs
  let (username, r2) ← readBytes r1
  let (password, r3) ← readBytes r2
  let (url, r4) ← readOptBytes r3
  let (notes, r5) ← readOptBytes r4
  let (customFields, r6) ← readOptPairs r5
  if r6 = [] then
    pure { title := title, username := username, password := password,
           url := url, notes := notes, customFields := customFields }
  else
    none

/-- `encryptCredentials(credentials, key)`: serializes to JSON and encrypts
the resulting string. -/
def encryptCredentials (nonce : Bytes) (now : Int) (credentials : CredentialData)
    (key : Bytes) : Except CryptoError EncryptedData :=
  encrypt nonce now (.str (serializeCredentialData credentials)) key none

/-- `decryptCredentials(encryptedData, key)`: decrypts and parses the JSON
back, raising the malformed-payload error when parsing fails. -/
def decryptCredentials (encryptedData : EncryptedData) (key : Bytes) :
    Except CryptoError CredentialData :=
  match decrypt encryptedData key none with
  | .error e => .error e
  | .ok json =>
    match deserializeCredentialData json with
    | some credentials => .ok credentials
    | none => .error .malformedPayload

/-! ## src/storage/vaultStorage.ts over the Dexie credentials table -/

/-- A stored credential row (`Credential` in types.ts). -/
structure Credential where
  id : String
  folderId : Option String
  encryptedData : EncryptedData
  createdAt : Int
  updatedAt : Int
  deleted : Bool
deriving DecidableEq

/-- The partial-update objects passed to `db.credentials.update(id, {...})`:
only the present fields are changed. -/
structure CredentialPatch where
  encryptedData : Option EncryptedData
  updatedAt : Option Int
  deleted : Option Bool

/-- Apply a partial update to a row. -/
def applyPatch (p : CredentialPatch) (c : Credential) : Credential :=
  { c with
    encryptedData := p.encryptedData.getD c.encryptedData,
    updatedAt := p.updatedAt.getD c.updatedAt,
    deleted := p.deleted.getD c.deleted }

/-- Dexie `table.get(id)`: lookup by primary key. -/
def tableGet (tbl : List Credential) (id : String) : Option Credential :=
  tbl.find? fun c => c.id == id

/-- Dexie `table.update(id, changes)`: patch the row(s) with the given
primary key. -/
def tableUpdate (tbl : List Credential) (id : String) (p : CredentialPatch) :
    List Credential :=
  tbl.map fun c => if c.id == id then applyPatch p c else c

/-- Dexie `table.delete(id)`: physically remove the row. -/
def tableDelete (tbl : List Credential) (id : String) : List Credential :=
  tbl.filter fun c => !(c.id == id)

/-- Dexie `table.add(record)`. -/
def tableAdd (tbl : List Credential) (c : Credential) : List Credential :=
  tbl ++ [c]

/-- The persistent database state the storage layer sees: the credentials
table plus the vault metadata timestamp touched by `updateLastAccessed`
(folders are not involved in any verified claim). -/
structure VaultDB where
  credentials : List Credential
  lastAccessedAt : Int
deriving DecidableEq

/-- `db.updateLastAccessed()`. -/
def VaultDB.updateLastAccessed (now : Int) (db : VaultDB) : VaultDB :=
  { db with lastAccessedAt := now }

/-- Errors surfaced by the storage layer. -/
inductive StorageError where
  /-- `CredentialNotFoundError` -/
  | credentialNotFound (id : String)
  /-- an error propagated from the crypto layer -/
  | cryptoError (e : CryptoError)
deriving DecidableEq

namespace VaultStorage

/-- `createCredential(data, folderId?)`.  The generated id, the fresh nonce
drawn inside `encrypt` and the `Date.now()` reading are injected. -/
def createCredential (key : Bytes) (nonce : Bytes) (newId : String)
    (now : Int) (data : CredentialData) (folderId : Option String)
    (db : VaultDB) : Except StorageError (Credential × VaultDB) :=
  match encryptCredentials nonce now data key with
  | .error e => .error (.cryptoError e)
  | .ok encryptedData =>
    let credential : Credential :=
      { id := newId, folderId := folderId, encryptedData := encryptedData,
        createdAt := now, updatedAt := now, deleted := false }
    let db1 := { db with credentials := tableAdd db.credentials credential }
    .ok (credential, db1.updateLastAccessed now)

/-- `getCredential(id)`: raw read, returns soft-deleted rows too; touches the
last-accessed timestamp only on a hit. -/
def getCredential (now : Int) (id : String) (db : VaultDB) :
    Option Credential × VaultDB :=
  match tableGet db.credentials id with
  | some credential => (some credential, db.updateLastAccessed now)
  | none => (none, db)

/-- `getCredentialData(id)`: decrypted read.  Throws the not-found error when
the row is absent, otherwise decrypts whatever row was found. -/
def getCredentialData (key : Bytes) (now : Int) (id : String) (db : VaultDB) :
    Except StorageError (CredentialData × VaultDB) :=
  match getCredential now id db with
  | (none, _) => .error (.credentialNotFound id)
  | (some credential, db1) =>
    match decryptCredentials credential.encryptedData key with
    | .error e => .error (.cryptoError e)
    | .ok data => .ok (data, db1)

/-- `getAllCredentials(folderId?)`: lists non-deleted rows, optionally
filtered by exact folder match (`none` = the argument was omitted). -/
def getAllCredentials (now : Int) (folderFilter : Option (Option String))
    (db : VaultDB) : List Credential × VaultDB :=
  let collection := db.credentials.filter fun c => !c.deleted
  let collection := match folderFilter with
    | none => collection
    | some folderId => collection.filter fun c => c.folderId == folderId
  (collection, db.updateLastAccessed now)

/-- `updateCredential(id, data)`: re-encrypts with a fresh nonce and patches
only `encryptedData` and `updatedAt`. -/
def updateCredential (key : Bytes) (nonce : Bytes) (now : Int) (id : String)
    (data : CredentialData) (db : VaultDB) : Except StorageError VaultDB :=
  match tableGet db.credentials id with
  | none => .error (.credentialNotFound id)
  | some _ =>
    match encryptCredentials nonce now data key with
    | .error e => .error (.cryptoError e)
    | .ok encryptedData =>
      let changes : CredentialPatch :=
        { encryptedData := some encryptedData, updatedAt := some now,
          deleted := none }
      let db1 := { db with
        credentials := tableUpdate db.credentials id changes }
      .ok (db1.updateLastAccessed now)

/-- `deleteCredential(id)`: soft delete, sets the flag and bumps
`updatedAt`. -/
def deleteCredential (now : Int) (id : String) (db : VaultDB) :
    Except StorageError VaultDB :=
  match tableGet db.credentials id with
  | none => .error (.credentialNotFound id)
  | some _ =>
    let changes : CredentialPatch :=
      { encryptedData := none, updatedAt := some now, deleted := some true }
    let db1 := { db with
      credentials := tableUpdate db.credentials id changes }
    .ok (db1.updateLastAccessed now)

/-- `permanentlyDeleteCredential(id)`: physically removes the row
(no existence check). -/
def permanentlyDeleteCredential (now : Int) (id : String) (db : VaultDB) :
    VaultDB :=
  ({ db with credentials := tableDelete db.credentials id
   } : VaultDB).updateLastAccessed now

end VaultStorage

/-! ## src/store/vaultStore.ts (zustand vault store) -/

/-- `DecryptedCredential`: decrypted payload plus record metadata. -/
structure DecryptedCredential where
  data : CredentialData
  id : String
  createdAt : Int
  updatedAt : Int
deriving DecidableEq

/-- The error strings the vault store records in its `error` field. -/
inductive VaultStoreMessage where
  /-- 'Vault is locked' -/
  | vaultIsLocked
  /-- 'Failed to load credentials' or a propagated error message -/
  | failedToLoad
deriving DecidableEq

/-- The zustand vault store state (the UI-facing fields that participate in
lock/unlock). -/
structure VaultStoreState where
  isUnlocked : Bool
  key : Option Bytes
  credentials : List DecryptedCredential
  isLoading : Bool
  error : Option VaultStoreMessage
  searchQuery : Bytes
  selectedCredentialId : Option String
deriving DecidableEq

/-- The `decryptAllCredentials` helper loop: decrypt each listed credential
via `getCredentialData`, skipping (logging) the ones that fail. -/
def decryptCredentialList (key : Bytes) (now : Int) :
    List Credential → VaultDB → List DecryptedCredential × VaultDB
  | [], db => ([], db)
  | c :: rest, db =>
    match VaultStorage.getCredentialData key now c.id db with
    | .ok (data, db1) =>
      let (tl, db2) := decryptCredentialList key now rest db1
      ({ data := data, id := c.id, createdAt := c.createdAt,
         updatedAt := c.updatedAt } :: tl, db2)
    | .error _ => decryptCredentialList key now rest db

/-- `decryptAllCredentials(storage)`: list the non-deleted credentials and
decrypt them one by one. -/
def decryptAllCredentials (key : Bytes) (now : Int) (db : VaultDB) :
    List DecryptedCredential × VaultDB :=
  let (allCredentials, db1) := VaultStorage.getAllCredentials now none db
  decryptCredentialList key now allCredentials db1

namespace VaultStore

/-- `lock()`: clears the session (stopping the auto-lock timer) and wipes the
key, decrypted credentials and UI state from memory. -/
def lock (now : Int) (vs : VaultStoreState) (ss : SessionStoreState) :
    VaultStoreState × SessionStoreState :=
  let ss1 := clearSession now ss
  ({ vs with isUnlocked := false, key := none, credentials := [],
             searchQuery := [], selectedCredentialId := none,
             error := none }, ss1)

/-- `unlock(key)`: stores the key, loads and decrypts the credentials,
initializes the session from the persisted settings and starts the auto-lock
timer. -/
def unlock (key : Bytes) (newTimerId : Nat) (now : Int)
    (vs : VaultStoreState) (ss : SessionStoreState) (db : VaultDB)
    (settings : SettingsStore) :
    VaultStoreState × SessionStoreState × VaultDB :=
  let vs1 := { vs with key := some key, isUnlocked := true,
                       isLoading := true, error := none }
  let r := decryptAllCredentials key now db
  let vs2 := { vs1 with credentials := r.1, isLoading := false }
  let ss1 := initializeSession now settings ss
  let ss2 := startAutoLockTimer newTimerId ss1
  (vs2, ss2, r.2)

/-- `loadCredentials()`: refuses with the 'Vault is locked' error when no key
is held, otherwise reloads and re-decrypts the stored credentials. -/
def loadCredentials (now : Int) (vs : VaultStoreState) (db : VaultDB) :
    VaultStoreState × VaultDB :=
  match vs.key with
  | none => ({ vs with error := some .vaultIsLocked }, db)
  | some key =>
    let vs1 := { vs with isLoading := true, error := none }
    let r := decryptAllCredentials key now db
    ({ vs1 with credentials := r.1, isLoading := false }, r.2)

end VaultStore

/-! ## Concrete inputs used by witnesses and counterexamples -/

/-- An all-zero 32-byte key. -/
def wKey : Bytes := List.replicate 32 0

/-- A second, different 32-byte key. -/
def wKey2 : Bytes := List.replicate 32 1

/-- An all-zero 24-byte nonce. -/
def wNonce : Bytes := List.replicate 24 0

/-- A 16-byte salt. -/
def wSalt : Bytes := List.replicate 16 5

/-- The ciphertext body of the bytes [104, 105] under `wKey`/`wNonce`. -/
def wBody : Bytes := xorStream (xchachaKeystream wKey wNonce) 0 [104, 105]

/-- The corresponding tag. -/
def wTag : AeadTag := ⟨wKey, wNonce, none, wBody⟩

/-- The `EncryptedData` produced by `encrypt` on those inputs at time 0. -/
def wEd : EncryptedData := ⟨⟨wBody, wTag⟩, wNonce, 0, 1⟩

/-- A small credential payload. -/
def wData : CredentialData :=
  { title := [1], username := [2], password := [3], url := none,
    notes := none, customFields := none }

/-- The ciphertext body of the serialized payload under `wKey`/`wNonce`. -/
def wBodyData : Bytes :=
  xorStream (xchachaKeystream wKey wNonce) 0 (serializeCredentialData wData)

/-- The stored `EncryptedData` for that payload. -/
def wEdData : EncryptedData :=
  ⟨⟨wBodyData, ⟨wKey, wNonce, none, wBodyData⟩⟩, wNonce, 0, 1⟩

/-- A live (non-deleted) stored credential row. -/
def wCred : Credential :=
  { id := "id1", folderId := none, encryptedData := wEdData,
    createdAt := 0, updatedAt := 0, deleted := false }

/-- A soft-deleted stored credential row with the same payload. -/
def wDeletedCred : Credential :=
  { wCred with deleted := true }

/-- A database holding the live row. -/
def wDB : VaultDB := { credentials := [wCred], lastAccessedAt := 0 }

/-- A database holding only the soft-deleted row. -/
def wDeletedDB : VaultDB :=
  { credentials := [wDeletedCred], lastAccessedAt := 0 }

/-- An unlocked vault store state holding `wKey`. -/
def wVaultStoreUnlocked : VaultStoreState :=
  { isUnlocked := true, key := some wKey, credentials := [],
    isLoading := false, error := none, searchQuery := [],
    selectedCredentialId := none }

/-- An active session with a running auto-lock timer. -/
def wSession : SessionStoreState :=
  { isActive := true, lastActivityTime := 0, lockTimeoutMinutes := 1,
    autoLockTimerId := some 0 }

/-! ## Helper lemmas -/

/-- XOR masking against a fixed keystream is an involution. -/
theorem xorStream_xorStream (ks : Nat → Nat) (i : Nat) (bs : Bytes) :
    xorStream ks i (xorStream ks i bs) = bs := by
  induction bs generalizing i with
  | nil => rfl
  | cons b bs ih => simp [xorStream, Nat.xor_assoc, Nat.xor_self, Nat.xor_zero, ih]

/-- The explicit success value of `encrypt` on a non-rejected plaintext with
well-sized key and nonce. -/
theorem encrypt_eq_ok (plaintext : Plaintext) (key nonce : Bytes)
    (ad : Option Bytes) (now : Int)
    (hemp : plaintext.isEmptyInput = false)
    (hkey : key.length = 32) (hnonce : nonce.length = 24) :
    encrypt nonce now plaintext key ad =
      .ok ⟨⟨xorStream (xchachaKeystream key nonce) 0 plaintext.bytes,
            ⟨key, nonce, ad, xorStream (xchachaKeystream key nonce) 0
              plaintext.bytes⟩⟩, nonce, now, 1⟩ := by
  unfold encrypt sodiumAeadEncrypt
  simp [hemp, hkey, hnonce, ENCRYPTION_VERSION]

/-- A successful `encrypt` output carries the original nonce and a tag over
exactly the presented key, nonce, associated data and produced body. -/
theorem encrypt_ok_shape (plaintext : Plaintext) (key nonce : Bytes)
    (ad : Option Bytes) (now : Int) (ed : EncryptedData)
    (henc : encrypt nonce now plaintext key ad = .ok ed) :
    ed.nonce = nonce ∧ ed.nonce.length = 24 ∧ key.length = 32 ∧
    ed.ciphertext.tag = ⟨key, nonce, ad, ed.ciphertext.body⟩ := by
  unfold encrypt at henc
  split at henc
  · exact absurd henc (by simp)
  · unfold sodiumAeadEncrypt at henc
    split at henc
    · rename_i h
      cases henc
      exact ⟨rfl, h.2, h.1, rfl⟩
    · exact absurd henc (by simp)

/-- Reading back one length-prefixed field. -/
theorem readBytes_encode (bs t : Bytes) :
    readBytes (encodeBytes bs ++ t) = some (bs, t) := by
  simp [encodeBytes, readBytes, List.take_left, List.drop_left]

/-- Reading back an optional field. -/
theorem readOptBytes_encode (o : Option Bytes) (t : Bytes) :
    readOptBytes (encodeOptBytes o ++ t) = some (o, t) := by
  cases o with
  | none => rfl
  | some bs =>
    simp [encodeOptBytes, readOptBytes, readBytes_encode]

/-- Reading back an encoded custom-field list. -/
theorem readPairs_encode (l : List (Bytes × Bytes)) (t : Bytes) :
    readPairs l.length ((l.map encodePair).flatten ++ t) = some (l, t) := by
  induction l with
  | nil => rfl
  | cons kv l ih =>
    simp only [List.map_cons, List.flatten_cons, List.length_cons,
      List.append_assoc, readPairs, encodePair]
    rw [readBytes_encode]
    simp only [Option.bind_eq_bind, Option.some_bind]
    rw [readBytes_encode]
    simp [ih]

/-- Reading back the optional custom-field record. -/
theorem readOptPairs_encode (o : Option (List (Bytes × Bytes))) (t : Bytes) :
    readOptPairs (encodeOptPairs o ++ t) = some (o, t) := by
  cases o with
  | none => rfl
  | some l =>
    simp [encodeOptPairs, readOptPairs, readPairs_encode]

/-- The JSON model round-trips: parsing a serialized credential payload
recovers it exactly. -/
theorem deserialize_serialize (d : CredentialData) :
    deserializeCredentialData (serializeCredentialData d) = some d := by
  have h : serializeCredentialData d =
      encodeBytes d.title ++ (encodeBytes d.username ++ (encodeBytes d.password
        ++ (encodeOptBytes d.url ++ (encodeOptBytes d.notes ++
          (encodeOptPairs d.customFields ++ []))))) := by
    simp [serializeCredentialData]
  rw [deserializeCredentialData, h, readBytes_encode]
  simp only [Option.bind_eq_bind, Option.some_bind]
  rw [readBytes_encode]
  simp only [Option.some_bind]
  rw [readBytes_encode]
  simp only [Option.some_bind]
  rw [readOptBytes_encode]
  simp only [Option.some_bind]
  rw [readOptBytes_encode]
  simp only [Option.some_bind]
  rw [readOptPairs_encode]
  simp

/-- A serialized credential payload is never the empty string. -/
theorem serializeCredentialData_ne_nil (d : CredentialData) :
    serializeCredentialData d ≠ [] := by
  simp [serializeCredentialData, encodeBytes]

/-- The explicit success value of `encryptCredentials` under a well-sized key
and nonce. -/
theorem encryptCredentials_eq_ok (nonce : Bytes) (now : Int)
    (d : CredentialData) (key : Bytes)
    (hkey : key.length = 32) (hnonce : nonce.length = 24) :
    encryptCredentials nonce now d key =
      .ok ⟨⟨xorStream (xchachaKeystream key nonce) 0
              (serializeCredentialData d),
            ⟨key, nonce, none, xorStream (xchachaKeystream key nonce) 0
              (serializeCredentialData d)⟩⟩, nonce, now, 1⟩ := by
  have hemp : (Plaintext.str (serializeCredentialData d)).isEmptyInput = false := by
    have := serializeCredentialData_ne_nil d
    cases hs : serializeCredentialData d with
    | nil => exact absurd hs this
    | cons b bs => rfl
  have := encrypt_eq_ok (.str (serializeCredentialData d)) key nonce none now
    hemp hkey hnonce
  simpa [encryptCredentials, Plaintext.bytes] using this

/-- Credentials-level round-trip: decrypting what `encryptCredentials`
produced with the same key recovers the structured payload. -/
theorem decryptCredentials_encryptCredentials (nonce : Bytes) (now : Int)
    (d : CredentialData) (key : Bytes) (ed : EncryptedData)
    (hkey : key.length = 32) (hnonce : nonce.length = 24)
    (henc : encryptCredentials nonce now d key = .ok ed) :
    decryptCredentials ed key = .ok d := by
  rw [encryptCredentials_eq_ok nonce now d key hkey hnonce] at henc
  cases henc
  unfold decryptCredentials decrypt sodiumAeadDecrypt
  simp [hnonce, hkey, xorStream_xorStream, deserialize_serialize]

/-- Partial updates never touch the primary key. -/
theorem applyPatch_id (p : CredentialPatch) (c : Credential) :
    (applyPatch p c).id = c.id := rfl

/-- Looking up a patched table at the patched key returns the patched row. -/
theorem tableGet_tableUpdate (tbl : List Credential) (id : String)
    (p : CredentialPatch) :
    tableGet (tableUpdate tbl id p) id =
      (tableGet tbl id).map (applyPatch p) := by
  induction tbl with
  | nil => rfl
  | cons c tbl ih =>
    cases hc : (c.id == id) with
    | true =>
      have h : c.id = id := eq_of_beq hc
      simp [tableGet, tableUpdate, List.find?_cons, h, applyPatch_id]
    | false =>
      simp only [tableUpdate, List.map_cons, hc, Bool.false_eq_true, if_false]
      simp only [tableGet, List.find?_cons, hc, applyPatch_id]
      simpa [tableGet, tableUpdate] using ih

/-- Looking up a physically deleted key returns nothing. -/
theorem tableGet_tableDelete (tbl : List Credential) (id : String) :
    tableGet (tableDelete tbl id) id = none := by
  induction tbl with
  | nil => rfl
  | cons c tbl ih =>
    cases hc : (c.id == id) with
    | true =>
      simpa [tableDelete, List.filter_cons, hc] using ih
    | false =>
      simp only [tableDelete, List.filter_cons, hc, Bool.not_false, if_pos]
      simp only [tableGet, List.find?_cons, hc]
      simpa [tableGet, tableDelete] using ih

/-- After a soft-delete patch, every row carrying the patched key has its
deleted flag set. -/
theorem mem_tableUpdate_softDelete (tbl : List Credential) (id : String)
    (now : Int) (x : Credential)
    (hx : x ∈ tableUpdate tbl id
      { encryptedData := none, updatedAt := some now, deleted := some true })
    (hid : x.id = id) : x.deleted = true := by
  induction tbl with
  | nil => cases hx
  | cons c tbl ih =>
    simp only [tableUpdate, List.map_cons, List.mem_cons] at hx
    cases hx with
    | inl h =>
      cases hc : (c.id == id) with
      | true =>
        rw [hc] at h
        simp only [if_pos] at h
        rw [h]
        rfl
      | false =>
        rw [hc] at h
        simp only [Bool.false_eq_true, if_false] at h
        rw [h] at hid
        exact absurd hid (by simpa using hc)
    | inr h =>
      exact ih (by simpa [tableUpdate] using h)

/-! ## Claim theorems -/

/-- C1: for every non-empty plaintext T (string or byte sequence, modelled by
its byte content) and every 32-byte key K, decrypting the `EncryptedData`
produced by `encrypt(T, K)` (under whatever fresh 24-byte nonce it drew) with
the same key K and the same associated data returns T. -/
theorem encrypt_decrypt_roundtrip (plaintext : Plaintext) (key nonce : Bytes)
    (ad : Option Bytes) (now : Int)
    (hpt : plaintext.bytes ≠ [])
    (hkey : key.length = 32) (hnonce : nonce.length = 24) :
    ∃ ed, encrypt nonce now plaintext key ad = .ok ed ∧
          decrypt ed key ad = .ok plaintext.bytes := by
  have hemp : plaintext.isEmptyInput = false := by
    cases plaintext with
    | str bs =>
      cases bs with
      | nil => exact absurd rfl hpt
      | cons b bs => rfl
    | buf bs => rfl
  refine ⟨_, encrypt_eq_ok plaintext key nonce ad now hemp hkey hnonce, ?_⟩
  unfold decrypt sodiumAeadDecrypt
  simp [hnonce, hkey, xorStream_xorStream]

/-- C1 witness: the round-trip at the concrete plaintext [104, 105] under the
all-zero key and nonce. -/
theorem encrypt_decrypt_roundtrip_witness :
    ∃ ed, encrypt wNonce 0 (.str [104, 105]) wKey none = .ok ed ∧
          decrypt ed wKey none = .ok (Plaintext.str [104, 105]).bytes :=
  encrypt_decrypt_roundtrip (.str [104, 105]) wKey wNonce none 0
    (by decide) (by decide) (by decide)

/-- Any failure of the authentication condition inside a well-formed blob
yields the single generic decryption-failed error. -/
theorem decrypt_eq_decryptionFailed (ed2 : EncryptedData) (key2 : Bytes)
    (ad2 : Option Bytes) (hn : ed2.nonce.length = 24)
    (hcond : ¬(ed2.ciphertext.tag =
        ⟨key2, ed2.nonce, ad2, ed2.ciphertext.body⟩ ∧
      key2.length = 32 ∧ ed2.nonce.length = 24)) :
    decrypt ed2 key2 ad2 = .error .decryptionFailed := by
  unfold decrypt sodiumAeadDecrypt
  rw [if_neg (by simp [hn]), if_neg hcond]

/-- C2: given an `EncryptedData` produced by `encrypt`, decrypting any
well-formed variant (24-byte nonce) in which the key differs, the nonce was
altered, the ciphertext body was altered, or the associated data differs —
with the authentication tag bytes unchanged — fails with the single generic
decryption-failed error; likewise altering the tag alone makes decryption
fail with the same error.  No case returns partial or garbage plaintext. -/
theorem decrypt_rejects_wrong_key_and_tampering (plaintext : Plaintext)
    (key nonce : Bytes) (ad : Option Bytes) (now ts : Int) (v : Nat)
    (ed : EncryptedData)
    (henc : encrypt nonce now plaintext key ad = .ok ed) :
    (∀ key2 nonce2 body2 ad2, nonce2.length = 24 →
        ¬(key2 = key ∧ nonce2 = nonce ∧ body2 = ed.ciphertext.body ∧
          ad2 = ad) →
        decrypt ⟨⟨body2, ed.ciphertext.tag⟩, nonce2, ts, v⟩ key2 ad2 =
          .error .decryptionFailed) ∧
    (∀ tag2, tag2 ≠ ed.ciphertext.tag →
        decrypt ⟨⟨ed.ciphertext.body, tag2⟩, nonce, ts, v⟩ key ad =
          .error .decryptionFailed) := by
  obtain ⟨hn, hn24, hk32, htag⟩ :=
    encrypt_ok_shape plaintext key nonce ad now ed henc
  constructor
  · intro key2 nonce2 body2 ad2 hn2 hne
    apply decrypt_eq_decryptionFailed _ _ _ hn2
    intro hcontra
    apply hne
    have hteq := hcontra.1
    simp only [htag, AeadTag.mk.injEq] at hteq
    exact ⟨hteq.1.symm, hteq.2.1.symm, hteq.2.2.2.symm, hteq.2.2.1.symm⟩
  · intro tag2 htne
    have hnl : nonce.length = 24 := by rw [← hn]; exact hn24
    apply decrypt_eq_decryptionFailed _ _ _ hnl
    intro hcontra
    apply htne
    rw [htag]
    exact hcontra.1

/-- C2 witness: decrypting the concrete blob from the C1 witness with a
different 32-byte key fails with the generic decryption-failed error. -/
theorem decrypt_rejects_wrong_key_witness :
    decrypt ⟨⟨wEd.ciphertext.body, wEd.ciphertext.tag⟩, wNonce, 0, 1⟩ wKey2
      none = .error .decryptionFailed :=
  (decrypt_rejects_wrong_key_and_tampering (.str [104, 105]) wKey wNonce none
      0 0 1 wEd (by rfl)).1 wKey2 wNonce wEd.ciphertext.body none
    (by decide) (by decide)

/-- C9 counterexample: for the all-zero 32-byte key, encrypting an empty byte
sequence (`Buffer` of length 0) does not raise the empty-plaintext error —
the `!plaintext` check is false for a `Buffer` object and the `typeof` guard
restricts the length check to strings — so the call succeeds and returns an
`EncryptedData` blob. -/
theorem encrypt_accepts_empty_buffer :
    encrypt wNonce 0 (.buf []) wKey none =
      .ok ⟨⟨[], ⟨wKey, wNonce, none, []⟩⟩, wNonce, 0, 1⟩ := by
  rfl

/-- C9 (amended): `encrypt` fails with the empty-plaintext error whenever the
input plaintext is the empty string; an empty byte sequence is not rejected
by the emptiness check. -/
theorem encrypt_rejects_empty_string (nonce : Bytes) (now : Int) (key : Bytes)
    (additionalData : Option Bytes) :
    encrypt nonce now (.str []) key additionalData =
      .error .emptyPlaintext := by
  rfl

/-- C6: for every non-empty password and 16-byte salt, `deriveKey` is a
deterministic function of the (password, salt) pair — two calls agree
byte-for-byte regardless of the random salt draws `r1`, `r2` that would only
be consumed were the salt omitted — and the derived key has 32 bytes. -/
theorem deriveKey_deterministic (password s r1 r2 : Bytes)
    (hp : password ≠ []) (hs : s.length = 16) :
    ∃ dk, deriveKey r1 password (some s) = .ok dk ∧
          deriveKey r2 password (some s) = .ok dk ∧
          dk.key.length = 32 := by
  refine ⟨{ key := cryptoPwhash ARGON2_PARAMS_KEY_LENGTH password s
              ARGON2_PARAMS_TIME_COST ARGON2_PARAMS_MEMORY_COST,
            salt := s }, ?_, ?_, ?_⟩
  · simp [deriveKey, hp]
  · simp [deriveKey, hp]
  · simp [cryptoPwhash, ARGON2_PARAMS_KEY_LENGTH]

/-- C6 witness: determinism at the concrete password [112] and 16-byte salt,
with two different would-be random draws. -/
theorem deriveKey_deterministic_witness :
    ([112] : Bytes) ≠ [] ∧ wSalt.length = 16 ∧
    ∃ dk, deriveKey [] [112] (some wSalt) = .ok dk ∧
          deriveKey [9] [112] (some wSalt) = .ok dk ∧ dk.key.length = 32 :=
  ⟨by decide, by decide,
   deriveKey_deterministic [112] wSalt [] [9] (by decide) (by decide)⟩

/-- C7: on an active session with `lockTimeoutMinutes = m`, one tick of the
periodic check locks the session, stops the timer and emits exactly one
auto-lock notification when the inactivity reaches m * 60000 ms, and leaves
the state unchanged with no notification otherwise. -/
theorem checkAndLockIfInactive_spec (now m : Int) (st : SessionStoreState)
    (hactive : st.isActive = true) (hm : st.lockTimeoutMinutes = m) :
    (now - st.lastActivityTime ≥ m * 60000 →
      (checkAndLockIfInactive now st).1.isActive = false ∧
      (checkAndLockIfInactive now st).1.autoLockTimerId = none ∧
      (checkAndLockIfInactive now st).2 = 1) ∧
    (now - st.lastActivityTime < m * 60000 →
      checkAndLockIfInactive now st = (st, 0)) := by
  have hms : st.lockTimeoutMinutes * 60 * 1000 = m * 60000 := by
    rw [hm]; ring
  constructor
  · intro h
    have hc : now - st.lastActivityTime ≥ st.lockTimeoutMinutes * 60 * 1000 := by
      rw [hms]; exact h
    unfold checkAndLockIfInactive
    rw [hactive]
    rw [if_neg (by simp : ¬(true = false))]
    dsimp only
    rw [if_pos hc]
    refine ⟨rfl, ?_, rfl⟩
    unfold clearSession stopAutoLockTimer
    cases htimer : st.autoLockTimerId with
    | none => exact htimer
    | some t => rfl
  · intro h
    have hc : ¬(now - st.lastActivityTime ≥ st.lockTimeoutMinutes * 60 * 1000) := by
      rw [hms]; omega
    unfold checkAndLockIfInactive
    rw [hactive]
    rw [if_neg (by simp : ¬(true = false))]
    dsimp only
    rw [if_neg hc]

/-- C7 witness: with a 1-minute timeout and the last activity 61 seconds in
the past, one periodic tick locks the session, clears the timer handle and
fires exactly one auto-lock notification. -/
theorem checkAndLockIfInactive_spec_witness :
    (checkAndLockIfInactive 61000 wSession).1.isActive = false ∧
    (checkAndLockIfInactive 61000 wSession).1.autoLockTimerId = none ∧
    (checkAndLockIfInactive 61000 wSession).2 = 1 :=
  (checkAndLockIfInactive_spec 61000 1 wSession (by decide) (by decide)).1
    (by decide)

/-- C8: `setLockTimeout(n)` stores the clamp max(1, min(60, n)) both in the
session state and in the persisted settings, so the applied timeout always
lies in [1, 60]. -/
theorem setLockTimeout_clamps (minutes : Int) (st : SessionStoreState)
    (settings : SettingsStore) :
    (setLockTimeout minutes st settings).1.lockTimeoutMinutes =
        max 1 (min 60 minutes) ∧
    (setLockTimeout minutes st settings).2.sessionSettings =
        some (max 1 (min 60 minutes)) ∧
    1 ≤ (setLockTimeout minutes st settings).1.lockTimeoutMinutes ∧
    (setLockTimeout minutes st settings).1.lockTimeoutMinutes ≤ 60 := by
  refine ⟨rfl, rfl, ?_, ?_⟩
  · show (1 : Int) ≤ max 1 (min 60 minutes)
    exact le_max_left 1 (min 60 minutes)
  · show max 1 (min 60 minutes) ≤ (60 : Int)
    exact max_le (by norm_num) (min_le_left 60 minutes)

/-- C4: for a stored credential id, after `deleteCredential` (soft delete)
the listing `getAllCredentials` excludes the record under every filter, while
the raw read `getCredential` still returns it with `deleted = true` (and the
bumped `updatedAt`); after a subsequent `permanentlyDeleteCredential`, the
raw read returns not-found. -/
theorem softDelete_visibility (now : Int) (id : String) (db : VaultDB)
    (c : Credential) (hget : tableGet db.credentials id = some c) :
    ∃ db1, VaultStorage.deleteCredential now id db = .ok db1 ∧
      (∀ now2 ff, ∀ c' ∈ (VaultStorage.getAllCredentials now2 ff db1).1,
        c'.id ≠ id) ∧
      (∀ now3, (VaultStorage.getCredential now3 id db1).1 =
        some { c with deleted := true, updatedAt := now }) ∧
      (∀ now4 now5, (VaultStorage.getCredential now5 id
        (VaultStorage.permanentlyDeleteCredential now4 id db1)).1 = none) := by
  have hdel : VaultStorage.deleteCredential now id db =
      .ok (VaultDB.updateLastAccessed now
        ⟨tableUpdate db.credentials id ⟨none, some now, some true⟩,
         db.lastAccessedAt⟩) := by
    unfold VaultStorage.deleteCredential
    rw [hget]
  refine ⟨_, hdel, ?_, ?_, ?_⟩
  · intro now2 ff c' hc' heq
    have hmem : c' ∈ List.filter (fun c => !c.deleted)
        (tableUpdate db.credentials id
          (⟨none, some now, some true⟩ : CredentialPatch)) := by
      cases ff with
      | none => exact hc'
      | some fid => exact List.mem_of_mem_filter hc'
    have hmem2 := (List.mem_filter.mp hmem).1
    have hflag := (List.mem_filter.mp hmem).2
    have hdel' := mem_tableUpdate_softDelete db.credentials id now c' hmem2 heq
    rw [hdel'] at hflag
    simp at hflag
  · intro now3
    unfold VaultStorage.getCredential
    simp only [VaultDB.updateLastAccessed]
    rw [tableGet_tableUpdate, hget]
    rfl
  · intro now4 now5
    unfold VaultStorage.getCredential VaultStorage.permanentlyDeleteCredential
    simp only [VaultDB.updateLastAccessed]
    rw [tableGet_tableDelete]

/-- C4 witness: the soft-delete/permanent-delete visibility sequence at the
concrete one-row database `wDB`. -/
theorem softDelete_visibility_witness :
    ∃ db1, VaultStorage.deleteCredential 3 "id1" wDB = .ok db1 ∧
      (∀ now2 ff, ∀ c' ∈ (VaultStorage.getAllCredentials now2 ff db1).1,
        c'.id ≠ "id1") ∧
      (∀ now3, (VaultStorage.getCredential now3 "id1" db1).1 =
        some { wCred with deleted := true, updatedAt := 3 }) ∧
      (∀ now4 now5, (VaultStorage.getCredential now5 "id1"
        (VaultStorage.permanentlyDeleteCredential now4 "id1" db1)).1 = none) :=
  softDelete_visibility 3 "id1" wDB wCred (by rfl)

/-- C10: for an existing credential id, `updateCredential` changes only the
`encryptedData` (to the fresh encryption of the new data) and `updatedAt`
fields of the stored record; `id`, `folderId`, `createdAt` and `deleted` are
unchanged. -/
theorem updateCredential_frame (key nonce : Bytes) (now : Int) (id : String)
    (data : CredentialData) (db : VaultDB) (c : Credential)
    (hkey : key.length = 32) (hnonce : nonce.length = 24)
    (hget : tableGet db.credentials id = some c) :
    ∃ db1 ed1,
      VaultStorage.updateCredential key nonce now id data db = .ok db1 ∧
      encryptCredentials nonce now data key = .ok ed1 ∧
      ∀ now2, (VaultStorage.getCredential now2 id db1).1 =
        some { id := c.id, folderId := c.folderId, encryptedData := ed1,
               createdAt := c.createdAt, updatedAt := now,
               deleted := c.deleted } := by
  obtain ⟨ed1, henc⟩ : ∃ ed1, encryptCredentials nonce now data key = .ok ed1 :=
    ⟨_, encryptCredentials_eq_ok nonce now data key hkey hnonce⟩
  have hupd : VaultStorage.updateCredential key nonce now id data db =
      .ok (VaultDB.updateLastAccessed now
        ⟨tableUpdate db.credentials id ⟨some ed1, some now, none⟩,
         db.lastAccessedAt⟩) := by
    unfold VaultStorage.updateCredential
    rw [hget, henc]
  refine ⟨_, ed1, hupd, henc, ?_⟩
  intro now2
  unfold VaultStorage.getCredential
  simp only [VaultDB.updateLastAccessed]
  rw [tableGet_tableUpdate, hget]
  rfl

/-- C10 witness: the frame property at the concrete one-row database `wDB`
with a fresh payload. -/
theorem updateCredential_frame_witness :
    ∃ db1 ed1,
      VaultStorage.updateCredential wKey wNonce 9 "id1"
        { wData with title := [4] } wDB = .ok db1 ∧
      encryptCredentials wNonce 9 { wData with title := [4] } wKey =
        .ok ed1 ∧
      ∀ now2, (VaultStorage.getCredential now2 "id1" db1).1 =
        some { id := wCred.id, folderId := wCred.folderId,
               encryptedData := ed1, createdAt := wCred.createdAt,
               updatedAt := 9, deleted := wCred.deleted } :=
  updateCredential_frame wKey wNonce 9 "id1" { wData with title := [4] } wDB
    wCred (by decide) (by decide) (by rfl)

/-- C5 (amended): the decrypted read `getCredentialData` fails with the
not-found error exactly when no record with the id exists; when a record
exists its payload is decrypted and returned regardless of the `deleted`
flag — the soft-delete flag is not consulted on the decrypted read path
(only listings exclude soft-deleted rows). -/
theorem getCredentialData_ignores_deleted_flag (key : Bytes) (now : Int)
    (id : String) (db : VaultDB) :
    (tableGet db.credentials id = none →
      VaultStorage.getCredentialData key now id db =
        .error (.credentialNotFound id)) ∧
    (∀ c, tableGet db.credentials id = some c →
      VaultStorage.getCredentialData key now id db =
        match decryptCredentials c.encryptedData key with
        | .ok data => .ok (data, db.updateLastAccessed now)
        | .error e => .error (.cryptoError e)) := by
  constructor
  · intro h
    unfold VaultStorage.getCredentialData VaultStorage.getCredential
    rw [h]
  · intro c h
    unfold VaultStorage.getCredentialData VaultStorage.getCredential
    rw [h]
    dsimp only
    cases hd : decryptCredentials c.encryptedData key with
    | ok data => rfl
    | error e => rfl

/-- C5 witness: on an empty database the decrypted read fails with the
not-found error. -/
theorem getCredentialData_ignores_deleted_flag_witness :
    VaultStorage.getCredentialData wKey 0 "id1" ⟨[], 0⟩ =
      .error (.credentialNotFound "id1") :=
  (getCredentialData_ignores_deleted_flag wKey 0 "id1" ⟨[], 0⟩).1 (by rfl)

/-- C5 counterexample: with the soft-deleted row `wDeletedCred`
(`deleted = true`) stored, `getCredentialData` does not fail with a
not-found error — it decrypts and returns the payload, because the code only
checks for absence, never the `deleted` flag. -/
theorem getCredentialData_returns_soft_deleted :
    VaultStorage.getCredentialData wKey 7 "id1" wDeletedDB =
      .ok (wData, wDeletedDB.updateLastAccessed 7) := by
  rfl

/-- C3 (amended): `lock()` clears the vault store's key, decrypted
credentials and UI state; while locked, `loadCredentials` records the
'Vault is locked' error, keeps the cleared credential list and does not touch
the database; a subsequent `unlock` installs a key again.  The storage layer
itself performs no lock check (no `VaultLockedError` exists in the code) —
see the counterexample for an operation succeeding with a stale key. -/
theorem lock_clears_key_until_unlock (now now2 now3 : Int) (key2 : Bytes)
    (newTimerId : Nat) (vs : VaultStoreState) (ss : SessionStoreState)
    (db : VaultDB) (settings : SettingsStore) :
    (VaultStore.lock now vs ss).1.key = none ∧
    (VaultStore.lock now vs ss).1.isUnlocked = false ∧
    (VaultStore.lock now vs ss).1.credentials = [] ∧
    (VaultStore.loadCredentials now2 (VaultStore.lock now vs ss).1 db).1.error
      = some .vaultIsLocked ∧
    (VaultStore.loadCredentials now2 (VaultStore.lock now vs ss).1
      db).1.credentials = [] ∧
    (VaultStore.loadCredentials now2 (VaultStore.lock now vs ss).1 db).2 =
      db ∧
    (VaultStore.unlock key2 newTimerId now3 (VaultStore.lock now vs ss).1 ss
      db settings).1.key = some key2 := by
  exact ⟨rfl, rfl, rfl, rfl, rfl, rfl, rfl⟩

/-- C3 counterexample: after `lock()` has cleared the store's key, a
`VaultStorage` instance retained from before the lock (it captured the key at
construction) still succeeds: the decrypted read below returns the plaintext
payload instead of failing — no store operation raises a `VaultLockedError`,
which does not exist in the code. -/
theorem storage_operation_succeeds_after_lock :
    (VaultStore.lock 1 wVaultStoreUnlocked wSession).1.key = none ∧
    VaultStorage.getCredentialData wKey 2 "id1" wDB =
      .ok (wData, wDB.updateLastAccessed 2) := by
  exact ⟨rfl, rfl⟩
